import Mathlib

/-!
Verification of the `di-sacala` dependency-injection container
(`src/di-sacala.ts`).

The runtime of the library is a single class `DiContainer` with two
methods:

* `inject(dependency)` — computes the service name from
  `dependency.prototype.getServiceName()`, rejects the registration when
  the container already has an own property with that name
  (`Duplicate service name: <name>`), and otherwise defines an
  enumerable lazy getter that invokes `new dependency(this)` on first
  access and caches the produced instance in the closure variable
  `instance`.
* `injectContainer(other)` — first iterates over `other`'s own
  enumerable keys and throws `Containers have duplicated keys: <key>` at
  the first key that is also an own key of `this`; only when no key
  collides does a second loop define, for every own key of `other`, a
  pure delegating getter `() => other[key]` on `this`.

The embedding below models a heap of container objects (identified by
numbers) whose own enumerable properties are association lists from
names to slots, in property-insertion order, exactly as JavaScript
enumerates non-index string keys.  A slot is either a service slot
(factory, closure cache, plus an instrumentation counter recording how
often `new dependency(this)` has run for this slot) or a delegation
slot produced by `injectContainer`.

User-supplied constructors are arbitrary foreign code; the embedding
represents them by their possible observable interactions with the
container: a constructor that simply builds an object (`make`), one
that throws (`throwing`), and one that tests the container for the
presence of a sibling own property, recording the answer in the
constructed instance (`checkField`).  Every constructed instance
carries a fresh allocation identifier, so "identical instance" is
expressible as equality of identifiers.

Property reads are modelled by `read`, which is fuel-indexed because a
delegation slot forwards to another container's property read; the fuel
models the JavaScript call stack (exhaustion corresponds to the
`RangeError` a cyclic delegation would produce).  Reading an absent
name yields `undefined`, except that names found on the container's
prototype chain — the members the class declaration places on
`DiContainer.prototype` (`constructor`, `inject`, `injectContainer`)
and the own properties of `Object.prototype`, from which every object
inherits (`toString`, `hasOwnProperty`, `valueOf`, `__proto__`, ...) —
are observed as the inherited member when they are not shadowed by an
own property.
-/

namespace DiSacala

/-- Observable behaviour of a user-supplied service constructor
(`new dependency(this)`): construct an instance without touching the
container, throw an exception with a given message, or test the
container for an own property named `q` (as user code does with
`Object.prototype.hasOwnProperty.call(this, q)`) and record the answer
in the constructed instance. -/
inductive Factory where
  | make : Factory
  | throwing (msg : String) : Factory
  | checkField (q : String) : Factory
deriving DecidableEq, Repr

/-- Values observable from property reads: `undefined`, a member
inherited through the container's prototype chain (a method of
`DiContainer.prototype` or of `Object.prototype`; for `__proto__` an
accessor — all modelled uniformly as the inherited member for that
name), or a service instance with its allocation identity and the
observation its constructor recorded. -/
inductive Value where
  | undef : Value
  | protoMethod (m : String) : Value
  | obj (id : Nat) (obs : Option Bool) : Value
deriving DecidableEq, Repr

/-- An own property of a container: either a service slot installed by
`inject` (factory, the closure cache `instance`, and an instrumentation
counter of how many times `new dependency(this)` has run for it), or a
delegating slot installed by `injectContainer` (`get: () => other[key]`). -/
inductive Slot where
  | service (f : Factory) (cached : Option Value) (calls : Nat) : Slot
  | delegate (src : Nat) (key : String) : Slot
deriving DecidableEq, Repr

/-- Own enumerable properties of one container object, in insertion
order (JavaScript enumeration order for non-index string keys). -/
abbrev Container := List (String × Slot)

/-- Own-property test, modelling
`Object.prototype.hasOwnProperty.call(obj, key)` (the helper `has` in
the source). -/
def hasOwn : Container → String → Bool
  | [], _ => false
  | p :: t, n => if p.1 = n then true else hasOwn t n

/-- Look up the slot bound to an own property name. -/
def lookupSlot : Container → String → Option Slot
  | [], _ => none
  | p :: t, n => if p.1 = n then some p.2 else lookupSlot t n

/-- Overwrite the slot stored under an existing own property name,
keeping its position in enumeration order (this is how the closure
assignment `instance = new dependency(this)` is reflected into the
container's slot); on an absent name the binding is appended. -/
def updateSlot : Container → String → Slot → Container
  | [], n, sl => [(n, sl)]
  | p :: t, n, sl => if p.1 = n then (n, sl) :: t else p :: updateSlot t n sl

/-- The mutable world: every `DiContainer` object that exists, indexed
by an object identifier, together with an allocation counter used to
give every constructed service instance a distinct identity. -/
structure DiState where
  heap : List (Nat × Container)
  nextObj : Nat
deriving DecidableEq, Repr

/-- Read a container object from the heap (a fresh `new DiContainer()`
is simply a container with no own properties). -/
def getC : List (Nat × Container) → Nat → Container
  | [], _ => []
  | p :: t, cid => if p.1 = cid then p.2 else getC t cid

/-- Replace a container object in the heap. -/
def setC : List (Nat × Container) → Nat → Container → List (Nat × Container)
  | [], cid, c => [(cid, c)]
  | p :: t, cid, c => if p.1 = cid then (cid, c) :: t else p :: setC t cid c

/-- Own properties of the container object `cid`. -/
def getContainer (s : DiState) (cid : Nat) : Container :=
  getC s.heap cid

/-- Update the own properties of the container object `cid`. -/
def setContainer (s : DiState) (cid : Nat) (c : Container) : DiState :=
  { s with heap := setC s.heap cid c }

/-- The slot bound to name `n` on container `cid`, if any. -/
def slotAt (s : DiState) (cid : Nat) (n : String) : Option Slot :=
  lookupSlot (getContainer s cid) n

/-- Overwrite one slot of one container. -/
def setSlot (s : DiState) (cid : Nat) (n : String) (sl : Slot) : DiState :=
  setContainer s cid (updateSlot (getContainer s cid) n sl)

/-- Names a `DiContainer` instance inherits through its prototype
chain: the members the class declaration places on
`DiContainer.prototype` ("constructor", "inject", "injectContainer")
together with the own property names of `Object.prototype`, from which
every object inherits ("constructor" is shadowed by the class's own
one).  A property read of one of these names on a container without an
own property of that name observes the inherited member instead of
`undefined`. -/
def protoNames : List String :=
  ["constructor", "inject", "injectContainer",
   "hasOwnProperty", "isPrototypeOf", "propertyIsEnumerable",
   "toLocaleString", "toString", "valueOf",
   "__defineGetter__", "__defineSetter__",
   "__lookupGetter__", "__lookupSetter__", "__proto__"]

/-- `DiContainer.inject`, called on container `cid` with a dependency
class whose `prototype.getServiceName()` is `n` and whose constructor
behaves as `f`: if the container already has an own property `n` the
call throws `Duplicate service name: <n>` and changes nothing;
otherwise it defines an own enumerable lazy slot for `n` (the factory
has not yet run: empty cache, zero invocations).  The `Option String`
component is the thrown error message, if any. -/
def inject (s : DiState) (cid : Nat) (n : String) (f : Factory) :
    DiState × Option String :=
  let c := getContainer s cid
  if hasOwn c n then
    (s, some ("Duplicate service name: " ++ n))
  else
    (setContainer s cid (c ++ [(n, Slot.service f none 0)]), none)

/-- `DiContainer.injectContainer`, called on container `tgt` with the
container `src` as argument: a first loop over `src`'s own keys (in
enumeration order) throws `Containers have duplicated keys: <key>` at
the first key that is also an own key of `tgt`; only if no key collides
does a second loop append, for every own key of `src`, a delegating
slot `() => other[key]` to `tgt`. -/
def injectContainer (s : DiState) (tgt src : Nat) : DiState × Option String :=
  let tc := getContainer s tgt
  let sc := getContainer s src
  match sc.find? (fun p => hasOwn tc p.1) with
  | some p => (s, some ("Containers have duplicated keys: " ++ p.1))
  | none =>
      (setContainer s tgt (tc ++ sc.map (fun p => (p.1, Slot.delegate src p.1))), none)

/-- A property read `container[n]`, the fundamental access pattern.
An absent name observes the inherited member when it lies on the
prototype chain (`DiContainer.prototype` or `Object.prototype`) and
`undefined` otherwise.  A resolved service slot
returns its cached instance unchanged.  An unresolved service slot runs
`new dependency(this)` — bumping the instrumentation counter — and on
success allocates a fresh instance, records it in the closure cache,
and returns it; a throwing constructor propagates its exception and
caches nothing.  A delegating slot forwards to the source container's
property read; the fuel bounds the call stack. -/
def read : Nat → DiState → Nat → String → DiState × Except String Value
  | 0, s, _, _ => (s, Except.error "RangeError: maximum call stack size exceeded")
  | fuel + 1, s, cid, n =>
    match lookupSlot (getContainer s cid) n with
    | none =>
        if n ∈ protoNames then (s, Except.ok (Value.protoMethod n))
        else (s, Except.ok Value.undef)
    | some (Slot.delegate src key) => read fuel s src key
    | some (Slot.service f cached calls) =>
        match cached with
        | some v => (s, Except.ok v)
        | none =>
            match f with
            | Factory.make =>
                let v := Value.obj s.nextObj none
                (setSlot { s with nextObj := s.nextObj + 1 } cid n
                  (Slot.service f (some v) (calls + 1)), Except.ok v)
            | Factory.throwing msg =>
                (setSlot s cid n (Slot.service f none (calls + 1)),
                  Except.error msg)
            | Factory.checkField q =>
                let v := Value.obj s.nextObj (some (hasOwn (getContainer s cid) q))
                (setSlot { s with nextObj := s.nextObj + 1 } cid n
                  (Slot.service f (some v) (calls + 1)), Except.ok v)

/-- The constructor behaviour `f` reads (tests) the container property
named `n`. -/
def readsField (f : Factory) (n : String) : Prop :=
  f = Factory.checkField n

instance (f : Factory) (n : String) : Decidable (readsField f n) := by
  unfold readsField; infer_instance

instance : DecidableEq (Except String Value) := fun a b =>
  match a, b with
  | Except.ok x, Except.ok y => decidable_of_iff (x = y) (by simp)
  | Except.ok _, Except.error _ => isFalse (by simp)
  | Except.error _, Except.ok _ => isFalse (by simp)
  | Except.error e, Except.error e' => decidable_of_iff (e = e') (by simp)

/-- Two states are observably identical: same allocation counter and
the same slot bound to every name of every container. -/
def SEquiv (s t : DiState) : Prop :=
  s.nextObj = t.nextObj ∧ ∀ cid n, slotAt s cid n = slotAt t cid n

end DiSacala

namespace DiSacala

theorem lookupSlot_updateSlot (c : Container) (n x : String) (sl : Slot) :
    lookupSlot (updateSlot c n sl) x =
      if n = x then some sl else lookupSlot c x := by
  induction c with
  | nil => simp [updateSlot, lookupSlot]
  | cons p t ih =>
      by_cases hpn : p.1 = n
      · by_cases hnx : n = x <;>
          simp [updateSlot, lookupSlot, hpn, hnx]
      · by_cases hpx : p.1 = x
        · have hnx : ¬ n = x := fun h => hpn (h ▸ hpx)
          have hxn : ¬ x = n := fun h => hnx h.symm
          simp [updateSlot, lookupSlot, hpn, hpx, hnx, hxn]
        · simp [updateSlot, lookupSlot, hpn, hpx, ih]

theorem hasOwn_eq_isSome (c : Container) (n : String) :
    hasOwn c n = (lookupSlot c n).isSome := by
  induction c with
  | nil => simp [hasOwn, lookupSlot]
  | cons p t ih =>
      by_cases hpn : p.1 = n <;> simp [hasOwn, lookupSlot, hpn, ih]

theorem getC_setC (h : List (Nat × Container)) (cid x : Nat) (c : Container) :
    getC (setC h cid c) x = if cid = x then c else getC h x := by
  induction h with
  | nil => simp [setC, getC]
  | cons p t ih =>
      by_cases hp : p.1 = cid
      · by_cases hcx : cid = x <;> simp [setC, getC, hp, hcx]
      · by_cases hpx : p.1 = x
        · have hcx : ¬ cid = x := fun h => hp (hpx.trans h.symm)
          have hxc : ¬ x = cid := fun h => hcx h.symm
          simp [setC, getC, hp, hpx, hcx, hxc]
        · simp [setC, getC, hp, hpx, ih]

theorem getContainer_setContainer (s : DiState) (cid x : Nat) (c : Container) :
    getContainer (setContainer s cid c) x = if cid = x then c else getContainer s x := by
  simp [getContainer, setContainer, getC_setC]

theorem nextObj_setContainer (s : DiState) (cid : Nat) (c : Container) :
    (setContainer s cid c).nextObj = s.nextObj := rfl

theorem slotAt_setSlot (s : DiState) (cid cid' : Nat) (n x : String) (sl : Slot) :
    slotAt (setSlot s cid n sl) cid' x =
      if cid = cid' ∧ n = x then some sl else slotAt s cid' x := by
  by_cases hc : cid = cid'
  · subst hc
    by_cases hnx : n = x <;>
      simp [slotAt, setSlot, getContainer_setContainer, lookupSlot_updateSlot, hnx]
  · simp [slotAt, setSlot, getContainer_setContainer, hc]

theorem nextObj_setSlot (s : DiState) (cid : Nat) (n : String) (sl : Slot) :
    (setSlot s cid n sl).nextObj = s.nextObj := rfl

theorem hasOwn_append (c₁ c₂ : Container) (x : String) :
    hasOwn (c₁ ++ c₂) x = (hasOwn c₁ x || hasOwn c₂ x) := by
  induction c₁ with
  | nil => simp [hasOwn]
  | cons p t ih =>
      by_cases hpx : p.1 = x <;> simp [hasOwn, hpx, ih]

theorem lookupSlot_append (c₁ c₂ : Container) (x : String) :
    lookupSlot (c₁ ++ c₂) x =
      if hasOwn c₁ x then lookupSlot c₁ x else lookupSlot c₂ x := by
  induction c₁ with
  | nil => simp [hasOwn, lookupSlot]
  | cons p t ih =>
      by_cases hpx : p.1 = x <;> simp [hasOwn, lookupSlot, hpx, ih]

theorem hasOwn_map_delegate (sc : Container) (src : Nat) (x : String) :
    hasOwn (sc.map (fun p => (p.1, Slot.delegate src p.1))) x = hasOwn sc x := by
  induction sc with
  | nil => simp [hasOwn]
  | cons p t ih =>
      by_cases hpx : p.1 = x <;> simp [hasOwn, hpx, ih]

theorem lookupSlot_map_delegate (sc : Container) (src : Nat) (x : String) :
    lookupSlot (sc.map (fun p => (p.1, Slot.delegate src p.1))) x =
      if hasOwn sc x then some (Slot.delegate src x) else none := by
  induction sc with
  | nil => simp [hasOwn, lookupSlot]
  | cons p t ih =>
      by_cases hpx : p.1 = x <;> simp [hasOwn, lookupSlot, hpx, ih]

theorem hasOwn_exists_mem (c : Container) (x : String) (h : hasOwn c x = true) :
    ∃ sl, (x, sl) ∈ c := by
  induction c with
  | nil => simp [hasOwn] at h
  | cons p t ih =>
      by_cases hpx : p.1 = x
      · exact ⟨p.2, by simp [← hpx]⟩
      · simp [hasOwn, hpx] at h
        obtain ⟨sl, hsl⟩ := ih h
        exact ⟨sl, List.mem_cons_of_mem _ hsl⟩

end DiSacala

namespace DiSacala

theorem read_absent (fuel : Nat) (s : DiState) (cid : Nat) (n : String)
    (h : slotAt s cid n = none) (hp : n ∉ protoNames) :
    read (fuel + 1) s cid n = (s, Except.ok Value.undef) := by
  simp only [slotAt] at h
  simp [read, h, hp]

theorem read_absent_proto (fuel : Nat) (s : DiState) (cid : Nat) (n : String)
    (h : slotAt s cid n = none) (hp : n ∈ protoNames) :
    read (fuel + 1) s cid n = (s, Except.ok (Value.protoMethod n)) := by
  simp only [slotAt] at h
  simp [read, h, hp]

theorem read_resolved (fuel : Nat) (s : DiState) (cid : Nat) (n : String)
    (f : Factory) (v : Value) (k : Nat)
    (h : slotAt s cid n = some (Slot.service f (some v) k)) :
    read (fuel + 1) s cid n = (s, Except.ok v) := by
  simp only [slotAt] at h
  simp [read, h]

theorem read_make (fuel : Nat) (s : DiState) (cid : Nat) (n : String) (k : Nat)
    (h : slotAt s cid n = some (Slot.service Factory.make none k)) :
    read (fuel + 1) s cid n =
      (setSlot { s with nextObj := s.nextObj + 1 } cid n
        (Slot.service Factory.make (some (Value.obj s.nextObj none)) (k + 1)),
       Except.ok (Value.obj s.nextObj none)) := by
  simp only [slotAt] at h
  simp [read, h]

theorem read_throwing (fuel : Nat) (s : DiState) (cid : Nat) (n : String)
    (msg : String) (k : Nat)
    (h : slotAt s cid n = some (Slot.service (Factory.throwing msg) none k)) :
    read (fuel + 1) s cid n =
      (setSlot s cid n (Slot.service (Factory.throwing msg) none (k + 1)),
       Except.error msg) := by
  simp only [slotAt] at h
  simp [read, h]

theorem read_checkField (fuel : Nat) (s : DiState) (cid : Nat) (n q : String)
    (k : Nat)
    (h : slotAt s cid n = some (Slot.service (Factory.checkField q) none k)) :
    read (fuel + 1) s cid n =
      (setSlot { s with nextObj := s.nextObj + 1 } cid n
        (Slot.service (Factory.checkField q)
          (some (Value.obj s.nextObj (some (hasOwn (getContainer s cid) q)))) (k + 1)),
       Except.ok (Value.obj s.nextObj (some (hasOwn (getContainer s cid) q)))) := by
  simp only [slotAt] at h
  simp [read, h]

theorem read_delegate (fuel : Nat) (s : DiState) (cid src : Nat) (n key : String)
    (h : slotAt s cid n = some (Slot.delegate src key)) :
    read (fuel + 1) s cid n = read fuel s src key := by
  simp only [slotAt] at h
  simp [read, h]

end DiSacala

namespace DiSacala

theorem hasOwn_false_lookup_none (c : Container) (n : String)
    (h : hasOwn c n = false) : lookupSlot c n = none := by
  cases hl : lookupSlot c n with
  | none => rfl
  | some sl => rw [hasOwn_eq_isSome, hl] at h; simp at h

/-- C1: for every container and every registered name, the slot is
memoized: a successful first read runs the factory exactly once
(invocation counter goes from `k` to `k + 1`) and caches the produced
instance in the slot, and every subsequent read — however many — returns
the identical cached instance and leaves the state (and hence the
invocation counter) unchanged, so the factory is never run again. -/
theorem c1_slot_memoized (fuel : Nat) (s : DiState) (cid : Nat) (n : String)
    (f : Factory) (k : Nat) (s' : DiState) (v : Value)
    (hslot : slotAt s cid n = some (Slot.service f none k))
    (hread : read (fuel + 1) s cid n = (s', Except.ok v)) :
    slotAt s' cid n = some (Slot.service f (some v) (k + 1)) ∧
    ∀ g, read (g + 1) s' cid n = (s', Except.ok v) := by
  cases f with
  | make =>
      rw [read_make fuel s cid n k hslot] at hread
      obtain ⟨h1, h2⟩ := Prod.mk.inj hread
      have hv : Value.obj s.nextObj none = v := Except.ok.inj h2
      subst h1
      subst hv
      refine ⟨by simp [slotAt_setSlot], fun g => ?_⟩
      exact read_resolved g _ cid n Factory.make _ (k + 1) (by simp [slotAt_setSlot])
  | throwing msg =>
      rw [read_throwing fuel s cid n msg k hslot] at hread
      obtain ⟨h1, h2⟩ := Prod.mk.inj hread
      simp at h2
  | checkField q =>
      rw [read_checkField fuel s cid n q k hslot] at hread
      obtain ⟨h1, h2⟩ := Prod.mk.inj hread
      have hv : Value.obj s.nextObj (some (hasOwn (getContainer s cid) q)) = v :=
        Except.ok.inj h2
      subst h1
      subst hv
      refine ⟨by simp [slotAt_setSlot], fun g => ?_⟩
      exact read_resolved g _ cid n (Factory.checkField q) _ (k + 1)
        (by simp [slotAt_setSlot])

theorem c1_slot_memoized_witness :
    slotAt (DiState.mk [(0, [("svc", Slot.service Factory.make none 0)])] 0) 0 "svc"
        = some (Slot.service Factory.make none 0) ∧
    (slotAt (DiState.mk [(0, [("svc",
          Slot.service Factory.make (some (Value.obj 0 none)) 1)])] 1) 0 "svc"
        = some (Slot.service Factory.make (some (Value.obj 0 none)) (0 + 1)) ∧
     ∀ g, read (g + 1)
        (DiState.mk [(0, [("svc",
          Slot.service Factory.make (some (Value.obj 0 none)) 1)])] 1) 0 "svc"
        = (DiState.mk [(0, [("svc",
          Slot.service Factory.make (some (Value.obj 0 none)) 1)])] 1,
           Except.ok (Value.obj 0 none))) :=
  ⟨by decide,
   c1_slot_memoized 0 (DiState.mk [(0, [("svc", Slot.service Factory.make none 0)])] 0)
     0 "svc" Factory.make 0
     (DiState.mk [(0, [("svc", Slot.service Factory.make (some (Value.obj 0 none)) 1)])] 1)
     (Value.obj 0 none) (by decide) (by decide)⟩

/-- C2: registering a second service under an already-bound name throws
`Duplicate service name: <name>` and leaves the container unmodified:
the returned state is exactly the input state, the first registration's
slot is intact, and reading the name behaves exactly as before the
failed registration. -/
theorem c2_duplicate_name (s : DiState) (cid : Nat) (n : String) (f₂ : Factory)
    (h : hasOwn (getContainer s cid) n = true) :
    inject s cid n f₂ = (s, some ("Duplicate service name: " ++ n)) ∧
    slotAt (inject s cid n f₂).1 cid n = slotAt s cid n ∧
    ∀ fuel, read fuel ((inject s cid n f₂).1) cid n = read fuel s cid n := by
  have he : inject s cid n f₂ = (s, some ("Duplicate service name: " ++ n)) := by
    simp [inject, h]
  exact ⟨he, by rw [he], fun fuel => by rw [he]⟩

theorem c2_duplicate_name_witness :
    inject (DiState.mk [(0, [("svc", Slot.service Factory.make none 0)])] 0)
        0 "svc" (Factory.throwing "boom")
      = (DiState.mk [(0, [("svc", Slot.service Factory.make none 0)])] 0,
         some ("Duplicate service name: " ++ "svc")) ∧
    slotAt (inject (DiState.mk [(0, [("svc", Slot.service Factory.make none 0)])] 0)
        0 "svc" (Factory.throwing "boom")).1 0 "svc"
      = slotAt (DiState.mk [(0, [("svc", Slot.service Factory.make none 0)])] 0) 0 "svc" ∧
    ∀ fuel, read fuel (inject
        (DiState.mk [(0, [("svc", Slot.service Factory.make none 0)])] 0)
        0 "svc" (Factory.throwing "boom")).1 0 "svc"
      = read fuel (DiState.mk [(0, [("svc", Slot.service Factory.make none 0)])] 0) 0 "svc" :=
  c2_duplicate_name (DiState.mk [(0, [("svc", Slot.service Factory.make none 0)])] 0)
    0 "svc" (Factory.throwing "boom") (by decide)

/-- C6: a factory that throws on first read propagates its exception to
the reader, caches nothing (the slot stays unresolved), and a
subsequent read runs the factory again (the invocation counter rises
from `k + 1` to `k + 2`) and propagates the exception again. -/
theorem c6_throwing_factory (fuel g : Nat) (s : DiState) (cid : Nat)
    (n msg : String) (k : Nat)
    (h : slotAt s cid n = some (Slot.service (Factory.throwing msg) none k)) :
    read (fuel + 1) s cid n =
      (setSlot s cid n (Slot.service (Factory.throwing msg) none (k + 1)),
       Except.error msg) ∧
    slotAt (setSlot s cid n (Slot.service (Factory.throwing msg) none (k + 1))) cid n
      = some (Slot.service (Factory.throwing msg) none (k + 1)) ∧
    read (g + 1) (setSlot s cid n (Slot.service (Factory.throwing msg) none (k + 1))) cid n
      = (setSlot (setSlot s cid n (Slot.service (Factory.throwing msg) none (k + 1)))
           cid n (Slot.service (Factory.throwing msg) none (k + 2)),
         Except.error msg) := by
  have h1 := read_throwing fuel s cid n msg k h
  have hs : slotAt (setSlot s cid n (Slot.service (Factory.throwing msg) none (k + 1)))
      cid n = some (Slot.service (Factory.throwing msg) none (k + 1)) := by
    simp [slotAt_setSlot]
  have h2 := read_throwing g _ cid n msg (k + 1) hs
  exact ⟨h1, hs, h2⟩

theorem c6_throwing_factory_witness :
    read 1 (DiState.mk [(0, [("svc", Slot.service (Factory.throwing "boom") none 0)])] 0)
        0 "svc" =
      (setSlot (DiState.mk [(0, [("svc", Slot.service (Factory.throwing "boom") none 0)])] 0)
         0 "svc" (Slot.service (Factory.throwing "boom") none (0 + 1)),
       Except.error "boom") ∧
    slotAt (setSlot (DiState.mk [(0, [("svc", Slot.service (Factory.throwing "boom") none 0)])] 0)
         0 "svc" (Slot.service (Factory.throwing "boom") none (0 + 1))) 0 "svc"
      = some (Slot.service (Factory.throwing "boom") none (0 + 1)) ∧
    read 1 (setSlot (DiState.mk [(0, [("svc", Slot.service (Factory.throwing "boom") none 0)])] 0)
         0 "svc" (Slot.service (Factory.throwing "boom") none (0 + 1))) 0 "svc"
      = (setSlot (setSlot (DiState.mk [(0, [("svc", Slot.service (Factory.throwing "boom") none 0)])] 0)
           0 "svc" (Slot.service (Factory.throwing "boom") none (0 + 1)))
           0 "svc" (Slot.service (Factory.throwing "boom") none (0 + 2)),
         Except.error "boom") :=
  c6_throwing_factory 0 0
    (DiState.mk [(0, [("svc", Slot.service (Factory.throwing "boom") none 0)])] 0)
    0 "svc" "boom" 0 (by decide)

/-- C9 counterexample: on a fresh container in which no name was ever
bound, reading the never-bound name "inject" yields the method
inherited from `DiContainer.prototype`, and reading the never-bound
name "toString" yields the method inherited from `Object.prototype` —
neither is the absent value `undefined`, so not every read of a
never-bound name yields a normal absent result. -/
theorem c9_counterexample :
    read 1 (DiState.mk [] 0) 0 "inject"
      = (DiState.mk [] 0, Except.ok (Value.protoMethod "inject")) ∧
    read 1 (DiState.mk [] 0) 0 "toString"
      = (DiState.mk [] 0, Except.ok (Value.protoMethod "toString")) ∧
    (Except.ok (Value.protoMethod "inject") : Except String Value)
      ≠ Except.ok Value.undef ∧
    (Except.ok (Value.protoMethod "toString") : Except String Value)
      ≠ Except.ok Value.undef := by
  exact ⟨by decide, by decide, by decide, by decide⟩

/-- C9 amended: for every name that is neither bound in the container
nor inherited through the container's prototype chain (the members of
`DiContainer.prototype` and of `Object.prototype`), reading the name
yields the normal absent value `undefined` (no distinguished error)
and leaves the container unchanged. -/
theorem c9_unbound_read (fuel : Nat) (s : DiState) (cid : Nat) (n : String)
    (h : hasOwn (getContainer s cid) n = false) (hp : n ∉ protoNames) :
    read (fuel + 1) s cid n = (s, Except.ok Value.undef) :=
  read_absent fuel s cid n (hasOwn_false_lookup_none _ n h) hp

theorem c9_unbound_read_witness :
    read 1 (DiState.mk [(0, [("svc", Slot.service Factory.make none 0)])] 5) 0 "other"
      = (DiState.mk [(0, [("svc", Slot.service Factory.make none 0)])] 5,
         Except.ok Value.undef) :=
  c9_unbound_read 0 (DiState.mk [(0, [("svc", Slot.service Factory.make none 0)])] 5)
    0 "other" (by decide) (by decide)

/-- C10: the runtime duplicate check consults only the container's own
bound slots, never the class's own API names: on a container with no
own binding for the reserved name ("inject" or "injectContainer"),
registering a service under that name raises no error, binds the key as
an ordinary slot, and subsequent reads of the name hit the slot and no
longer observe the inherited method — the reserved-name rejection lives
only in the compile-time types. -/
theorem c10_reserved_name_runtime (s : DiState) (cid : Nat) (f : Factory)
    (n : String) (_hn : n = "inject" ∨ n = "injectContainer")
    (h : hasOwn (getContainer s cid) n = false) :
    (inject s cid n f).2 = none ∧
    hasOwn (getContainer (inject s cid n f).1 cid) n = true ∧
    slotAt (inject s cid n f).1 cid n = some (Slot.service f none 0) ∧
    ∀ fuel, (read (fuel + 1) (inject s cid n f).1 cid n).2
      ≠ Except.ok (Value.protoMethod n) := by
  have hstate : (inject s cid n f).1
      = setContainer s cid (getContainer s cid ++ [(n, Slot.service f none 0)]) := by
    simp [inject, h]
  have hsnd : (inject s cid n f).2 = none := by simp [inject, h]
  have hhas : hasOwn (getContainer (inject s cid n f).1 cid) n = true := by
    rw [hstate, getContainer_setContainer]
    simp [hasOwn_append, h, hasOwn]
  have hslot : slotAt (inject s cid n f).1 cid n = some (Slot.service f none 0) := by
    rw [hstate]
    simp [slotAt, getContainer_setContainer, lookupSlot_append, h, lookupSlot]
  refine ⟨hsnd, hhas, hslot, fun fuel => ?_⟩
  cases f with
  | make => rw [read_make fuel _ cid n 0 hslot]; simp
  | throwing msg => rw [read_throwing fuel _ cid n msg 0 hslot]; simp
  | checkField q => rw [read_checkField fuel _ cid n q 0 hslot]; simp

theorem c10_reserved_name_runtime_witness :
    ((inject (DiState.mk [] 0) 0 "inject" Factory.make).2 = none ∧
     hasOwn (getContainer (inject (DiState.mk [] 0) 0 "inject" Factory.make).1 0)
        "inject" = true ∧
     slotAt (inject (DiState.mk [] 0) 0 "inject" Factory.make).1 0 "inject"
        = some (Slot.service Factory.make none 0) ∧
     ∀ fuel, (read (fuel + 1) (inject (DiState.mk [] 0) 0 "inject" Factory.make).1
        0 "inject").2 ≠ Except.ok (Value.protoMethod "inject")) :=
  c10_reserved_name_runtime (DiState.mk [] 0) 0 Factory.make "inject"
    (Or.inl rfl) (by decide)

end DiSacala

namespace DiSacala

/-- C4 counterexample: two containers collide on both "x1" and "x2",
yet the error raised by the merge names only "x1" — the first colliding
key in enumeration order; the other colliding name "x2" does not occur
anywhere in the message, so the error does not list every colliding
name. -/
theorem c4_counterexample :
    injectContainer
      (DiState.mk [(0, [("x1", Slot.service Factory.make none 0),
                        ("x2", Slot.service Factory.make none 0)]),
                   (1, [("x1", Slot.service Factory.make none 0),
                        ("x2", Slot.service Factory.make none 0)])] 0) 0 1
      = (DiState.mk [(0, [("x1", Slot.service Factory.make none 0),
                          ("x2", Slot.service Factory.make none 0)]),
                     (1, [("x1", Slot.service Factory.make none 0),
                          ("x2", Slot.service Factory.make none 0)])] 0,
         some "Containers have duplicated keys: x1") ∧
    hasOwn [("x1", Slot.service Factory.make none 0),
            ("x2", Slot.service Factory.make none 0)] "x2" = true ∧
    ¬ ("x2".data <:+: ("Containers have duplicated keys: x1").data) := by
  refine ⟨by decide, by decide, by decide⟩

/-- C4 amended: when a merge fails, the raised error names exactly the
first colliding key of the source container in enumeration order (not
every colliding name), and no partial merge occurs. -/
theorem c4_first_collision_only (s : DiState) (tgt src : Nat)
    (p : String × Slot)
    (h : (getContainer s src).find? (fun q => hasOwn (getContainer s tgt) q.1)
          = some p) :
    injectContainer s tgt src
      = (s, some ("Containers have duplicated keys: " ++ p.1)) := by
  simp [injectContainer, h]

theorem c4_first_collision_only_witness :
    injectContainer
      (DiState.mk [(0, [("x1", Slot.service Factory.make none 0),
                        ("x2", Slot.service Factory.make none 0)]),
                   (1, [("x1", Slot.service Factory.make none 0),
                        ("x2", Slot.service Factory.make none 0)])] 0) 0 1
      = (DiState.mk [(0, [("x1", Slot.service Factory.make none 0),
                          ("x2", Slot.service Factory.make none 0)]),
                     (1, [("x1", Slot.service Factory.make none 0),
                          ("x2", Slot.service Factory.make none 0)])] 0,
         some ("Containers have duplicated keys: "
                ++ ("x1", Slot.service Factory.make none 0).1)) :=
  c4_first_collision_only
    (DiState.mk [(0, [("x1", Slot.service Factory.make none 0),
                      ("x2", Slot.service Factory.make none 0)]),
                 (1, [("x1", Slot.service Factory.make none 0),
                      ("x2", Slot.service Factory.make none 0)])] 0) 0 1
    ("x1", Slot.service Factory.make none 0) (by decide)

/-- C5: merge is atomic: whenever the two containers share at least one
bound name, the merge raises a duplicate-keys error and returns the
state completely unchanged, so neither the target container nor the
source container has any binding added, removed, or changed (the
collision check runs in full before any copying). -/
theorem c5_merge_atomic (s : DiState) (tgt src : Nat) (x : String)
    (ht : hasOwn (getContainer s tgt) x = true)
    (hs : hasOwn (getContainer s src) x = true) :
    ∃ k, injectContainer s tgt src
      = (s, some ("Containers have duplicated keys: " ++ k)) := by
  cases hf : (getContainer s src).find? (fun q => hasOwn (getContainer s tgt) q.1) with
  | some p => exact ⟨p.1, by simp [injectContainer, hf]⟩
  | none =>
      obtain ⟨sl, hmem⟩ := hasOwn_exists_mem _ x hs
      have hnot := List.find?_eq_none.mp hf (x, sl) hmem
      simp [ht] at hnot

theorem c5_merge_atomic_witness :
    ∃ k, injectContainer
      (DiState.mk [(0, [("c", Slot.service Factory.make none 0)]),
                   (1, [("c", Slot.service (Factory.throwing "e") none 0)])] 0) 0 1
      = (DiState.mk [(0, [("c", Slot.service Factory.make none 0)]),
                     (1, [("c", Slot.service (Factory.throwing "e") none 0)])] 0,
         some ("Containers have duplicated keys: " ++ k)) :=
  c5_merge_atomic
    (DiState.mk [(0, [("c", Slot.service Factory.make none 0)]),
                 (1, [("c", Slot.service (Factory.throwing "e") none 0)])] 0) 0 1
    "c" (by decide) (by decide)

/-- C7 counterexample: name "a" is registered with a constructor that
tests the container for "b"; "b" is registered afterwards; reading "a"
then makes a's factory observe "b" as PRESENT (the instance records
`some true`, not `some false`), so a factory does not observe
later-registered siblings as absent. -/
theorem c7_counterexample :
    (read 1 (inject (inject (DiState.mk [] 0) 0 "a" (Factory.checkField "b")).1
        0 "b" Factory.make).1 0 "a").2
      = Except.ok (Value.obj 0 (some true)) ∧
    (Except.ok (Value.obj 0 (some true)) : Except String Value)
      ≠ Except.ok (Value.obj 0 (some false)) :=
  ⟨by decide, by decide⟩

/-- C7 amended: a factory observes the owning container as it is at the
moment of its first read, not as it was at its registration: if the
sibling name it tests is bound by read time — even one registered after
the factory's own registration — the factory observes it as present. -/
theorem c7_read_time_observation (fuel : Nat) (s : DiState) (cid : Nat)
    (a q : String) (k : Nat)
    (hslot : slotAt s cid a = some (Slot.service (Factory.checkField q) none k))
    (hq : hasOwn (getContainer s cid) q = true) :
    (read (fuel + 1) s cid a).2 = Except.ok (Value.obj s.nextObj (some true)) := by
  rw [read_checkField fuel s cid a q k hslot]
  simp [hq]

theorem c7_read_time_observation_witness :
    (read 1 (DiState.mk [(0, [("a", Slot.service (Factory.checkField "b") none 0),
                              ("b", Slot.service Factory.make none 0)])] 0) 0 "a").2
      = Except.ok (Value.obj 0 (some true)) :=
  c7_read_time_observation 0
    (DiState.mk [(0, [("a", Slot.service (Factory.checkField "b") none 0),
                      ("b", Slot.service Factory.make none 0)])] 0) 0 "a" "b" 0
    (by decide) (by decide)

end DiSacala

namespace DiSacala

theorem lookupSlot_mem (c : Container) (n : String) (sl : Slot)
    (h : lookupSlot c n = some sl) : (n, sl) ∈ c := by
  induction c with
  | nil => simp [lookupSlot] at h
  | cons p t ih =>
      by_cases hpn : p.1 = n
      · simp only [lookupSlot, if_pos hpn, Option.some.injEq] at h
        have hp : p = (n, sl) := by
          cases p
          simp_all
        rw [hp]
        exact List.mem_cons_self _ _
      · simp only [lookupSlot, if_neg hpn] at h
        exact List.mem_cons_of_mem _ (ih h)

theorem slotAt_nextObj (s : DiState) (m cid : Nat) (x : String) :
    slotAt { s with nextObj := m } cid x = slotAt s cid x := rfl

theorem read_unresolved_ok (fuel : Nat) (s : DiState) (cid : Nat) (n : String)
    (f : Factory) (k : Nat) (s' : DiState) (v : Value)
    (hslot : slotAt s cid n = some (Slot.service f none k))
    (hread : read (fuel + 1) s cid n = (s', Except.ok v)) :
    slotAt s' cid n = some (Slot.service f (some v) (k + 1)) ∧
    (∀ cid' x, ¬(cid = cid' ∧ n = x) → slotAt s' cid' x = slotAt s cid' x) ∧
    ∀ g, read (g + 1) s' cid n = (s', Except.ok v) := by
  cases f with
  | make =>
      rw [read_make fuel s cid n k hslot] at hread
      obtain ⟨h1, h2⟩ := Prod.mk.inj hread
      have hv : Value.obj s.nextObj none = v := Except.ok.inj h2
      subst h1
      subst hv
      refine ⟨by simp [slotAt_setSlot], fun cid' x hx => ?_, fun g => ?_⟩
      · rw [slotAt_setSlot, if_neg hx, slotAt_nextObj]
      · exact read_resolved g _ cid n Factory.make _ (k + 1) (by simp [slotAt_setSlot])
  | throwing msg =>
      rw [read_throwing fuel s cid n msg k hslot] at hread
      obtain ⟨h1, h2⟩ := Prod.mk.inj hread
      simp at h2
  | checkField q =>
      rw [read_checkField fuel s cid n q k hslot] at hread
      obtain ⟨h1, h2⟩ := Prod.mk.inj hread
      have hv : Value.obj s.nextObj (some (hasOwn (getContainer s cid) q)) = v :=
        Except.ok.inj h2
      subst h1
      subst hv
      refine ⟨by simp [slotAt_setSlot], fun cid' x hx => ?_, fun g => ?_⟩
      · rw [slotAt_setSlot, if_neg hx, slotAt_nextObj]
      · exact read_resolved g _ cid n (Factory.checkField q) _ (k + 1)
          (by simp [slotAt_setSlot])

/-- C3: a merge creates no service instances and copies bindings lazily
by reference: with `src` binding "a" (an unresolved service slot),
`tgt` binding "b", and no shared names, the merge succeeds; afterwards
`tgt` exposes both "a" and "b"; every service slot of every container —
cache, factory and invocation counter — is exactly as before the merge,
so the merge itself ran no factory; `tgt`'s new binding for "a" is a
pure delegation to `src`; and a read of "a" through `tgt` is literally
the read of "a" through `src`, so once either read produces an
instance, reading "a" through the other container returns the
identical cached instance (the memoization lives in `src`'s slot). -/
theorem c3_merge_lazy_delegation (s : DiState) (tgt src : Nat) (a b : String)
    (fa : Factory) (ka : Nat)
    (hne : tgt ≠ src)
    (ha : slotAt s src a = some (Slot.service fa none ka))
    (hb : hasOwn (getContainer s tgt) b = true)
    (hdisj : ∀ p ∈ getContainer s src, hasOwn (getContainer s tgt) p.1 = false) :
    (injectContainer s tgt src).2 = none ∧
    hasOwn (getContainer (injectContainer s tgt src).1 tgt) a = true ∧
    hasOwn (getContainer (injectContainer s tgt src).1 tgt) b = true ∧
    (∀ cid x f₂ c₂ k₂,
        slotAt (injectContainer s tgt src).1 cid x = some (Slot.service f₂ c₂ k₂)
          ↔ slotAt s cid x = some (Slot.service f₂ c₂ k₂)) ∧
    slotAt (injectContainer s tgt src).1 tgt a = some (Slot.delegate src a) ∧
    (∀ fuel, read (fuel + 1) (injectContainer s tgt src).1 tgt a
        = read fuel (injectContainer s tgt src).1 src a) ∧
    (∀ fuel s₁ v,
        read (fuel + 1) (injectContainer s tgt src).1 src a = (s₁, Except.ok v) →
        read (fuel + 1) s₁ src a = (s₁, Except.ok v) ∧
        read (fuel + 2) s₁ tgt a = (s₁, Except.ok v)) := by
  simp only [slotAt] at ha
  have hfind : (getContainer s src).find?
      (fun p => hasOwn (getContainer s tgt) p.1) = none :=
    List.find?_eq_none.mpr (fun p hp => by simp [hdisj p hp])
  have hmerge : injectContainer s tgt src
      = (setContainer s tgt (getContainer s tgt
          ++ (getContainer s src).map (fun p => (p.1, Slot.delegate src p.1))),
         none) := by
    simp [injectContainer, hfind]
  have h1 : (injectContainer s tgt src).1
      = setContainer s tgt (getContainer s tgt
          ++ (getContainer s src).map (fun p => (p.1, Slot.delegate src p.1))) := by
    rw [hmerge]
  have hg : getContainer (injectContainer s tgt src).1 tgt
      = getContainer s tgt
          ++ (getContainer s src).map (fun p => (p.1, Slot.delegate src p.1)) := by
    rw [h1, getContainer_setContainer, if_pos rfl]
  have hgsrc : getContainer (injectContainer s tgt src).1 src = getContainer s src := by
    rw [h1, getContainer_setContainer, if_neg hne]
  have hsa : hasOwn (getContainer s src) a = true := by
    rw [hasOwn_eq_isSome, ha]
    rfl
  have hta : hasOwn (getContainer s tgt) a = false :=
    hdisj (a, Slot.service fa none ka) (lookupSlot_mem _ a _ ha)
  have hdel : slotAt (injectContainer s tgt src).1 tgt a
      = some (Slot.delegate src a) := by
    simp only [slotAt, hg]
    rw [lookupSlot_append]
    simp [hta, lookupSlot_map_delegate, hsa]
  refine ⟨by rw [hmerge], ?_, ?_, ?_, hdel, ?_, ?_⟩
  · rw [hg, hasOwn_append, hasOwn_map_delegate, hsa]
    simp
  · rw [hg, hasOwn_append, hb]
    simp
  · intro cid x f₂ c₂ k₂
    by_cases hc : cid = tgt
    · rw [hc]
      have hx : slotAt (injectContainer s tgt src).1 tgt x
          = lookupSlot (getContainer s tgt
              ++ (getContainer s src).map (fun p => (p.1, Slot.delegate src p.1))) x := by
        simp only [slotAt, hg]
      rw [hx, lookupSlot_append]
      by_cases htx : hasOwn (getContainer s tgt) x = true
      · rw [if_pos htx]
        exact Iff.rfl
      · have hfx : hasOwn (getContainer s tgt) x = false := by
          simpa using htx
        rw [if_neg (by simp [hfx]), lookupSlot_map_delegate]
        constructor
        · intro hh
          by_cases hsx : hasOwn (getContainer s src) x = true
          · rw [if_pos hsx] at hh
            simp at hh
          · rw [if_neg hsx] at hh
            simp at hh
        · intro hh
          exfalso
          simp only [slotAt] at hh
          rw [hasOwn_eq_isSome, hh] at hfx
          simp at hfx
    · have hx : slotAt (injectContainer s tgt src).1 cid x = slotAt s cid x := by
        simp only [slotAt]
        rw [h1, getContainer_setContainer, if_neg (fun hh => hc hh.symm)]
      rw [hx]
  · intro fuel
    exact read_delegate fuel _ tgt src a a hdel
  · intro fuel s₁ v hr
    have hsrc' : slotAt (injectContainer s tgt src).1 src a
        = some (Slot.service fa none ka) := by
      simp only [slotAt, hgsrc]
      exact ha
    obtain ⟨hres, hframe, hsub⟩ :=
      read_unresolved_ok fuel _ src a fa ka s₁ v hsrc' hr
    refine ⟨hsub fuel, ?_⟩
    have hdel₁ : slotAt s₁ tgt a = some (Slot.delegate src a) := by
      rw [hframe tgt a (fun hh => hne hh.1.symm), hdel]
    rw [read_delegate (fuel + 1) s₁ tgt src a a hdel₁]
    exact hsub fuel

end DiSacala

namespace DiSacala

theorem c3_merge_lazy_delegation_witness :
    (injectContainer (DiState.mk
        [(0, [("b", Slot.service Factory.make none 0)]),
         (1, [("a", Slot.service Factory.make none 0)])] 0) 0 1).2 = none ∧
    hasOwn (getContainer (injectContainer (DiState.mk
        [(0, [("b", Slot.service Factory.make none 0)]),
         (1, [("a", Slot.service Factory.make none 0)])] 0) 0 1).1 0) "a" = true ∧
    hasOwn (getContainer (injectContainer (DiState.mk
        [(0, [("b", Slot.service Factory.make none 0)]),
         (1, [("a", Slot.service Factory.make none 0)])] 0) 0 1).1 0) "b" = true ∧
    (∀ cid x f₂ c₂ k₂,
        slotAt (injectContainer (DiState.mk
            [(0, [("b", Slot.service Factory.make none 0)]),
             (1, [("a", Slot.service Factory.make none 0)])] 0) 0 1).1 cid x
          = some (Slot.service f₂ c₂ k₂)
        ↔ slotAt (DiState.mk
            [(0, [("b", Slot.service Factory.make none 0)]),
             (1, [("a", Slot.service Factory.make none 0)])] 0) cid x
          = some (Slot.service f₂ c₂ k₂)) ∧
    slotAt (injectContainer (DiState.mk
        [(0, [("b", Slot.service Factory.make none 0)]),
         (1, [("a", Slot.service Factory.make none 0)])] 0) 0 1).1 0 "a"
      = some (Slot.delegate 1 "a") ∧
    (∀ fuel, read (fuel + 1) (injectContainer (DiState.mk
        [(0, [("b", Slot.service Factory.make none 0)]),
         (1, [("a", Slot.service Factory.make none 0)])] 0) 0 1).1 0 "a"
      = read fuel (injectContainer (DiState.mk
        [(0, [("b", Slot.service Factory.make none 0)]),
         (1, [("a", Slot.service Factory.make none 0)])] 0) 0 1).1 1 "a") ∧
    (∀ fuel s₁ v,
        read (fuel + 1) (injectContainer (DiState.mk
          [(0, [("b", Slot.service Factory.make none 0)]),
           (1, [("a", Slot.service Factory.make none 0)])] 0) 0 1).1 1 "a"
          = (s₁, Except.ok v) →
        read (fuel + 1) s₁ 1 "a" = (s₁, Except.ok v) ∧
        read (fuel + 2) s₁ 0 "a" = (s₁, Except.ok v)) :=
  c3_merge_lazy_delegation (DiState.mk
      [(0, [("b", Slot.service Factory.make none 0)]),
       (1, [("a", Slot.service Factory.make none 0)])] 0) 0 1 "a" "b"
    Factory.make 0 (by decide) (by decide) (by decide) (by decide)

theorem sequiv_withNextObj (s t : DiState) (m : Nat) (h : SEquiv s t) :
    SEquiv { s with nextObj := m } { t with nextObj := m } :=
  ⟨rfl, fun cid x => by rw [slotAt_nextObj, slotAt_nextObj]; exact h.2 cid x⟩

theorem sequiv_setSlot (s t : DiState) (cid : Nat) (n : String) (sl : Slot)
    (h : SEquiv s t) : SEquiv (setSlot s cid n sl) (setSlot t cid n sl) := by
  refine ⟨?_, fun cid' x => ?_⟩
  · rw [nextObj_setSlot, nextObj_setSlot]
    exact h.1
  · rw [slotAt_setSlot, slotAt_setSlot]
    by_cases hc : cid = cid' ∧ n = x
    · rw [if_pos hc, if_pos hc]
    · rw [if_neg hc, if_neg hc]
      exact h.2 cid' x

theorem hasOwn_congr (s t : DiState) (cid : Nat)
    (h : ∀ x, slotAt s cid x = slotAt t cid x) (q : String) :
    hasOwn (getContainer s cid) q = hasOwn (getContainer t cid) q := by
  rw [hasOwn_eq_isSome, hasOwn_eq_isSome]
  have hq := h q
  simp only [slotAt] at hq
  rw [hq]

theorem read_equiv (fuel : Nat) :
    ∀ (s t : DiState) (cid : Nat) (n : String), SEquiv s t →
    (read fuel s cid n).2 = (read fuel t cid n).2 ∧
    SEquiv (read fuel s cid n).1 (read fuel t cid n).1 := by
  induction fuel with
  | zero =>
      intro s t cid n h
      exact ⟨rfl, h⟩
  | succ fuel ih =>
      intro s t cid n h
      have hsl := h.2 cid n
      cases hcase : slotAt s cid n with
      | none =>
          have ht : slotAt t cid n = none := by rw [← hsl]; exact hcase
          by_cases hp : n ∈ protoNames
          · rw [read_absent_proto fuel s cid n hcase hp,
                read_absent_proto fuel t cid n ht hp]
            exact ⟨rfl, h⟩
          · rw [read_absent fuel s cid n hcase hp, read_absent fuel t cid n ht hp]
            exact ⟨rfl, h⟩
      | some sl =>
          have ht : slotAt t cid n = some sl := by rw [← hsl]; exact hcase
          cases sl with
          | delegate src key =>
              rw [read_delegate fuel s cid src n key hcase,
                  read_delegate fuel t cid src n key ht]
              exact ih s t src key h
          | service f cached calls =>
              cases cached with
              | some v =>
                  rw [read_resolved fuel s cid n f v calls hcase,
                      read_resolved fuel t cid n f v calls ht]
                  exact ⟨rfl, h⟩
              | none =>
                  cases f with
                  | make =>
                      rw [read_make fuel s cid n calls hcase,
                          read_make fuel t cid n calls ht]
                      refine ⟨by rw [h.1], ?_⟩
                      rw [h.1]
                      exact sequiv_setSlot _ _ cid n _
                        (sequiv_withNextObj s t (t.nextObj + 1) h)
                  | throwing msg =>
                      rw [read_throwing fuel s cid n msg calls hcase,
                          read_throwing fuel t cid n msg calls ht]
                      exact ⟨rfl, sequiv_setSlot s t cid n _ h⟩
                  | checkField q =>
                      rw [read_checkField fuel s cid n q calls hcase,
                          read_checkField fuel t cid n q calls ht]
                      have hq : hasOwn (getContainer s cid) q
                          = hasOwn (getContainer t cid) q :=
                        hasOwn_congr s t cid (fun x => h.2 cid x) q
                      refine ⟨by rw [h.1, hq], ?_⟩
                      rw [h.1, hq]
                      exact sequiv_setSlot _ _ cid n _
                        (sequiv_withNextObj s t (t.nextObj + 1) h)

end DiSacala

namespace DiSacala

theorem lookupSlot_pair_swap (c : Container) (a b : String) (sa sb : Slot)
    (hab : a ≠ b) (x : String) :
    lookupSlot (c ++ [(a, sa), (b, sb)]) x
      = lookupSlot (c ++ [(b, sb), (a, sa)]) x := by
  rw [lookupSlot_append, lookupSlot_append]
  by_cases hcx : hasOwn c x = true
  · simp [hcx]
  · have h0 : hasOwn c x = false := by simpa using hcx
    simp only [h0, Bool.false_eq_true, if_false]
    by_cases hax : a = x
    · have hbx : ¬ b = x := fun h => hab (hax.trans h.symm)
      simp [lookupSlot, hax, hbx]
    · by_cases hbx : b = x <;> simp [lookupSlot, hax, hbx]

/-- C8: registration order of independent services commutes: for two
distinct names whose factories do not read each other, registering A
then B and registering B then A both succeed, both resulting containers
expose A and B, the two resulting states bind the same slot to every
name of every container and agree on the allocation counter, and
consequently every property read — in particular every read of A or B —
returns the same outcome in both. -/
theorem c8_register_order_commutes (s : DiState) (cid : Nat) (a b : String)
    (f g : Factory) (hab : a ≠ b)
    (hA : hasOwn (getContainer s cid) a = false)
    (hB : hasOwn (getContainer s cid) b = false)
    (_hf : ¬ readsField f b) (_hg : ¬ readsField g a) :
    (inject s cid a f).2 = none ∧
    (inject (inject s cid a f).1 cid b g).2 = none ∧
    (inject s cid b g).2 = none ∧
    (inject (inject s cid b g).1 cid a f).2 = none ∧
    hasOwn (getContainer (inject (inject s cid a f).1 cid b g).1 cid) a = true ∧
    hasOwn (getContainer (inject (inject s cid a f).1 cid b g).1 cid) b = true ∧
    hasOwn (getContainer (inject (inject s cid b g).1 cid a f).1 cid) a = true ∧
    hasOwn (getContainer (inject (inject s cid b g).1 cid a f).1 cid) b = true ∧
    SEquiv (inject (inject s cid a f).1 cid b g).1
           (inject (inject s cid b g).1 cid a f).1 ∧
    ∀ fuel cid' n,
      (read fuel (inject (inject s cid a f).1 cid b g).1 cid' n).2
        = (read fuel (inject (inject s cid b g).1 cid a f).1 cid' n).2 := by
  have hba : b ≠ a := fun h => hab h.symm
  have inject_free : ∀ (u : DiState) (m : String) (ff : Factory),
      hasOwn (getContainer u cid) m = false →
      inject u cid m ff
        = (setContainer u cid
            (getContainer u cid ++ [(m, Slot.service ff none 0)]), none) := by
    intro u m ff hm
    simp [inject, hm]
  have e1 := inject_free s a f hA
  have e2 := inject_free s b g hB
  have g1 : getContainer (inject s cid a f).1 cid
      = getContainer s cid ++ [(a, Slot.service f none 0)] := by
    simp [e1, getContainer_setContainer]
  have g2 : getContainer (inject s cid b g).1 cid
      = getContainer s cid ++ [(b, Slot.service g none 0)] := by
    simp [e2, getContainer_setContainer]
  have hb1 : hasOwn (getContainer (inject s cid a f).1 cid) b = false := by
    rw [g1, hasOwn_append, hB]
    simp [hasOwn, hab]
  have ha2 : hasOwn (getContainer (inject s cid b g).1 cid) a = false := by
    rw [g2, hasOwn_append, hA]
    simp [hasOwn, hba]
  have e12 : inject (inject s cid a f).1 cid b g
      = (setContainer (inject s cid a f).1 cid
          ((getContainer s cid ++ [(a, Slot.service f none 0)])
            ++ [(b, Slot.service g none 0)]), none) := by
    rw [inject_free (inject s cid a f).1 b g hb1, g1]
  have e21 : inject (inject s cid b g).1 cid a f
      = (setContainer (inject s cid b g).1 cid
          ((getContainer s cid ++ [(b, Slot.service g none 0)])
            ++ [(a, Slot.service f none 0)]), none) := by
    rw [inject_free (inject s cid b g).1 a f ha2, g2]
  have gAB : getContainer (inject (inject s cid a f).1 cid b g).1 cid
      = getContainer s cid
          ++ [(a, Slot.service f none 0), (b, Slot.service g none 0)] := by
    simp [e12, getContainer_setContainer]
  have gBA : getContainer (inject (inject s cid b g).1 cid a f).1 cid
      = getContainer s cid
          ++ [(b, Slot.service g none 0), (a, Slot.service f none 0)] := by
    simp [e21, getContainer_setContainer]
  have hequiv : SEquiv (inject (inject s cid a f).1 cid b g).1
      (inject (inject s cid b g).1 cid a f).1 := by
    refine ⟨?_, fun cid' x => ?_⟩
    · rw [e12, e21]
      simp [e1, e2, setContainer]
    · by_cases hc : cid = cid'
      · rw [← hc]
        simp only [slotAt]
        rw [gAB, gBA]
        exact lookupSlot_pair_swap (getContainer s cid) a b _ _ hab x
      · simp only [slotAt]
        rw [e12, e21]
        simp [getContainer_setContainer, hc, e1, e2]
  refine ⟨by simp [e1], by simp [e12], by simp [e2], by simp [e21],
    ?_, ?_, ?_, ?_, hequiv, fun fuel cid' n => (read_equiv fuel _ _ cid' n hequiv).1⟩
  · rw [gAB, hasOwn_append]
    simp [hasOwn]
  · rw [gAB, hasOwn_append]
    simp [hasOwn, hba]
  · rw [gBA, hasOwn_append]
    simp [hasOwn, hab]
  · rw [gBA, hasOwn_append]
    simp [hasOwn]

end DiSacala

namespace DiSacala

theorem c8_register_order_commutes_witness :
    (inject (DiState.mk [] 0) 0 "a" Factory.make).2 = none ∧
    (inject (inject (DiState.mk [] 0) 0 "a" Factory.make).1 0 "b" Factory.make).2
      = none ∧
    (inject (DiState.mk [] 0) 0 "b" Factory.make).2 = none ∧
    (inject (inject (DiState.mk [] 0) 0 "b" Factory.make).1 0 "a" Factory.make).2
      = none ∧
    hasOwn (getContainer
      (inject (inject (DiState.mk [] 0) 0 "a" Factory.make).1 0 "b" Factory.make).1 0)
      "a" = true ∧
    hasOwn (getContainer
      (inject (inject (DiState.mk [] 0) 0 "a" Factory.make).1 0 "b" Factory.make).1 0)
      "b" = true ∧
    hasOwn (getContainer
      (inject (inject (DiState.mk [] 0) 0 "b" Factory.make).1 0 "a" Factory.make).1 0)
      "a" = true ∧
    hasOwn (getContainer
      (inject (inject (DiState.mk [] 0) 0 "b" Factory.make).1 0 "a" Factory.make).1 0)
      "b" = true ∧
    SEquiv (inject (inject (DiState.mk [] 0) 0 "a" Factory.make).1 0 "b" Factory.make).1
           (inject (inject (DiState.mk [] 0) 0 "b" Factory.make).1 0 "a" Factory.make).1 ∧
    ∀ fuel cid' n,
      (read fuel (inject (inject (DiState.mk [] 0) 0 "a" Factory.make).1
          0 "b" Factory.make).1 cid' n).2
        = (read fuel (inject (inject (DiState.mk [] 0) 0 "b" Factory.make).1
          0 "a" Factory.make).1 cid' n).2 :=
  c8_register_order_commutes (DiState.mk [] 0) 0 "a" "b" Factory.make Factory.make
    (by decide) (by decide) (by decide) (by decide) (by decide)

end DiSacala
